import Mathlib

/-!
Shallow embedding of the boundary-crossing benchmark driver
(`src/bench.py` and `src/python_node.py`): linked-list construction
(`build_list`), the pure-Python native traversal (`py_sum_list`), the
managed traversal (`python_sum_list`), the bench runner's control flow
(`bench`), the verification-gated main sequence, and the summary
engine's falsification check.  Timing values are modelled as rationals,
machine integers as `Int` (CPython integers are unbounded), and the
absence marker `None` by an explicit constructor.
-/

namespace BoundaryBench

/-- A pure-Python linked-list node reference (`PyNode` in
`python_node.py`, together with its `Optional` wrapping): `nil` models
the Python absence marker `None`, and `mk value next` models
`PyNode(value=value, next=next)`.  The inductive representation is
faithful to what `build_list` can produce, since nodes are never
mutated after construction. -/
inductive PyNode where
  | nil : PyNode
  | mk (value : Int) (next : PyNode) : PyNode
  deriving DecidableEq

/-- The values of the chain starting at a node reference, head to tail. -/
def toValues : PyNode → List Int
  | PyNode.nil => []
  | PyNode.mk v next => v :: toValues next

/-- The `while current is not None` accumulator loop shared by both
traversals in the source: `total` is the running sum. -/
def pySumAux (total : Int) : PyNode → Int
  | PyNode.nil => total
  | PyNode.mk v next => pySumAux (total + v) next

/-- Embedding of `py_sum_list` from `python_node.py` (lines 13-20): starts the loop
with `total = 0` at `head`. -/
def py_sum_list (head : PyNode) : Int := pySumAux 0 head

/-- The same accumulator loop as written a second time inside
`python_sum_list` in `bench.py`; kept as a separate definition because
the two Python functions are separate code. -/
def pythonSumAux (total : Int) : PyNode → Int
  | PyNode.nil => total
  | PyNode.mk v next => pythonSumAux (total + v) next

/-- Embedding of `python_sum_list` from `bench.py` (lines 36-50): the managed
traversal, `total = 0` at `head`. -/
def python_sum_list (head : PyNode) : Int := pythonSumAux 0 head

/-- Follow the `next` field `k` times from a node reference; an absent
reference stays absent. -/
def nthNext : PyNode → Nat → PyNode
  | c, 0 => c
  | PyNode.nil, _ + 1 => PyNode.nil
  | PyNode.mk _ next, k + 1 => nthNext next k

/-- The `for i in range(n - 2, -1, -1)` loop of `build_list`: the
argument counts the remaining iterations, so `prependLoop k head`
performs the iterations `i = k - 1, k - 2, ..., 0`, each constructing
`NodeClass(value=i, next=head)`.  The first component records the
values of the nodes constructed, in construction order. -/
def prependLoop : Nat → PyNode → List Int × PyNode
  | 0, head => ([], head)
  | k + 1, head =>
    let rest := prependLoop k (PyNode.mk (k : Int) head)
    ((k : Int) :: rest.1, rest.2)

/-- Embedding of `build_list` from `bench.py` (lines 27-33).  The `assert n > 0`
guard is checked first; on failure no node is constructed (empty
construction trace) and an invalid-argument error is returned.
Otherwise the node for value `n - 1` is constructed with absent `next`,
then the loop prepends values `n - 2, ..., 0`.  The first component is
the construction trace (values of constructed nodes in order). -/
def build_list (n : Int) : List Int × Except String PyNode :=
  if 0 < n then
    let rest := prependLoop (n - 1).toNat (PyNode.mk (n - 1) PyNode.nil)
    ((n - 1) :: rest.1, Except.ok rest.2)
  else
    ([], Except.error "List length must be positive")

/-- An observable event of the bench runner: an invocation of `fn`
(`call false` during warmup, `call true` during the timed phase) or a
read of the monotonic clock. -/
inductive BenchEvent where
  | call (timed : Bool) : BenchEvent
  | timerStart : BenchEvent
  | timerStop : BenchEvent
  deriving DecidableEq

/-- A `for _ in range(k): fn(head)` loop: emits one `call` event per
iteration, results discarded. -/
def callLoop (timed : Bool) : Nat → List BenchEvent
  | 0 => []
  | k + 1 => callLoop timed k ++ [BenchEvent.call timed]

/-- Is the event an invocation of `fn`? -/
def isCall : BenchEvent → Bool
  | BenchEvent.call _ => true
  | _ => false

/-- Embedding of `bench` from `bench.py` (lines 53-70).  `fnCallable` models
`callable(fn)`; `elapsed_ns` models the difference of the two
`time.perf_counter_ns()` readings taken during this run (an integer
nanosecond count, a free parameter of the model since real time is
nondeterministic).  The two `assert` guards are checked in source
order before anything else; on failure the event trace is empty and an
invalid-argument error is returned.  Otherwise the runner performs
1000 warmup invocations, reads the clock, performs `iterations` timed
invocations, reads the clock again, and returns
`elapsed_ns / iterations`. -/
def bench (iterations : Int) (fnCallable : Bool) (elapsed_ns : Int) :
    List BenchEvent × Except String Rat :=
  if 0 < iterations then
    if fnCallable then
      (callLoop false 1000 ++ [BenchEvent.timerStart] ++
         callLoop true iterations.toNat ++ [BenchEvent.timerStop],
       Except.ok ((elapsed_ns : Rat) / (iterations : Rat)))
    else
      ([], Except.error "fn must be callable")
  else
    ([], Except.error "Iterations must be positive")

/-- Outcome of the summary engine's falsification section: either the
hypothesis-falsified message, or the reported overhead (total
difference in ns/traversal, and per-node overhead). -/
inductive FalsificationOutcome where
  | falsified : FalsificationOutcome
  | overhead (diff_ns per_node_ns : Rat) : FalsificationOutcome
  deriving DecidableEq

/-- The falsification check of `main` in `bench.py` (lines 156-166):
`if rust_native < c_native` print the hypothesis-falsified message,
else report `rust_native - c_native` and that difference divided by
the list length `N`. -/
def falsification_check (rust_native c_native : Rat) (listLen : Nat) :
    FalsificationOutcome :=
  if rust_native < c_native then
    FalsificationOutcome.falsified
  else
    FalsificationOutcome.overhead (rust_native - c_native)
      ((rust_native - c_native) / (listLen : Rat))

/-- An observable event of `main` after the three lists are built: a
failing correctness assert (with the 0-based index of the assert that
fired), the correctness confirmation line, one of the six `bench`
invocations (0-based index), the ratios section, or the falsification
section. -/
inductive MainEvent where
  | assertFail (idx : Nat) : MainEvent
  | verifiedLine : MainEvent
  | benchRun (idx : Nat) : MainEvent
  | ratioLine : MainEvent
  | falsificationLine : MainEvent
  deriving DecidableEq

/-- The verification-then-benchmark sequence of `main` in `bench.py`
(lines 113-166), parametrised by the six sums computed over the three
pre-built lists — `s1 = py_sum_list(py_list)`, `s2 = c_sum_list(c_list)`,
`s3 = rust_sum_list(rust_list)`, `s4..s6 = python_sum_list` over the
py/c/rust lists — and by the expected closed-form value.  The six
`assert`s run in source order; the first mismatch aborts the run
(CPython `AssertionError` propagates out of `main`), so the trace ends
at that `assertFail` event.  Only when all six match does the run
proceed to the six `bench` invocations, the ratios and the
falsification section. -/
def main_verify_and_bench (s1 s2 s3 s4 s5 s6 expected : Int) : List MainEvent :=
  if s1 ≠ expected then [MainEvent.assertFail 0]
  else if s2 ≠ expected then [MainEvent.assertFail 1]
  else if s3 ≠ expected then [MainEvent.assertFail 2]
  else if s4 ≠ expected then [MainEvent.assertFail 3]
  else if s5 ≠ expected then [MainEvent.assertFail 4]
  else if s6 ≠ expected then [MainEvent.assertFail 5]
  else
    [MainEvent.verifiedLine] ++ (List.range 6).map MainEvent.benchRun ++
      [MainEvent.ratioLine, MainEvent.falsificationLine]

/-- A node as it sits in memory for the heap-level model: a `value`
field and a `next` field holding either an address or the absence
marker. -/
structure HNode where
  value : Int
  next : Option Nat
  deriving DecidableEq

/-- A heap: a finite association of addresses to nodes, absent elsewhere. -/
def Heap : Type := Nat → Option HNode

/-- Heap-level embedding of the `while current is not None` loop of
`py_sum_list`, with the heap threaded through every step exactly as
the interpreter threads the store.  Each iteration reads
`current.value` and `current.next` from the heap; the loop contains no
store operation.  `fuel` bounds the number of iterations (a cyclic
heap would make the source loop diverge); exhausted fuel or a dangling
address yields `none`. -/
def pySumLoopHeap : Nat → Int → Option Nat → Heap → Option Int × Heap
  | _, total, none, h => (some total, h)
  | 0, _, some _, h => (none, h)
  | fuel + 1, total, some a, h =>
    match h a with
    | none => (none, h)
    | some nd => pySumLoopHeap fuel (total + nd.value) nd.next h

/-- Heap-level `py_sum_list head`: the loop started at `total = 0`. -/
def py_sum_list_heap (h : Heap) (head : Option Nat) (fuel : Nat) :
    Option Int × Heap :=
  pySumLoopHeap fuel 0 head h

/-- Heap-level embedding of the identical loop inside
`python_sum_list` in `bench.py`. -/
def pythonSumLoopHeap : Nat → Int → Option Nat → Heap → Option Int × Heap
  | _, total, none, h => (some total, h)
  | 0, _, some _, h => (none, h)
  | fuel + 1, total, some a, h =>
    match h a with
    | none => (none, h)
    | some nd => pythonSumLoopHeap fuel (total + nd.value) nd.next h

/-- Heap-level `python_sum_list head`. -/
def python_sum_list_heap (h : Heap) (head : Option Nat) (fuel : Nat) :
    Option Int × Heap :=
  pythonSumLoopHeap fuel 0 head h

/-! ### Helper lemmas -/

theorem pySumAux_eq_sum (c : PyNode) : ∀ total, pySumAux total c = total + (toValues c).sum := by
  induction c with
  | nil => intro total; simp [pySumAux, toValues]
  | mk v next ih =>
    intro total
    simp only [pySumAux, toValues, List.sum_cons, ih]
    ring

theorem pythonSumAux_eq_sum (c : PyNode) :
    ∀ total, pythonSumAux total c = total + (toValues c).sum := by
  induction c with
  | nil => intro total; simp [pythonSumAux, toValues]
  | mk v next ih =>
    intro total
    simp only [pythonSumAux, toValues, List.sum_cons, ih]
    ring

theorem py_sum_list_eq_sum (c : PyNode) : py_sum_list c = (toValues c).sum := by
  simp [py_sum_list, pySumAux_eq_sum]

theorem python_sum_list_eq_sum (c : PyNode) : python_sum_list c = (toValues c).sum := by
  simp [python_sum_list, pythonSumAux_eq_sum]

/-- The integer list `[0, 1, ..., m - 1]` in ascending order. -/
def intRange : Nat → List Int
  | 0 => []
  | m + 1 => intRange m ++ [(m : Int)]

theorem intRange_length (m : Nat) : (intRange m).length = m := by
  induction m with
  | zero => rfl
  | succ m ih => simp [intRange, ih]

theorem prependLoop_toValues (k : Nat) :
    ∀ head, toValues (prependLoop k head).2 = intRange k ++ toValues head := by
  induction k with
  | zero => intro head; simp [prependLoop, intRange]
  | succ k ih =>
    intro head
    show toValues (prependLoop k (PyNode.mk (k : Int) head)).2 = _
    rw [ih, intRange]
    simp [toValues]

theorem build_list_pos (n : Int) (hn : 0 < n) :
    ∃ tr head, build_list n = (tr, Except.ok head) ∧
      toValues head = intRange n.toNat := by
  refine ⟨(n - 1) :: (prependLoop (n - 1).toNat (PyNode.mk (n - 1) PyNode.nil)).1,
    (prependLoop (n - 1).toNat (PyNode.mk (n - 1) PyNode.nil)).2, ?_, ?_⟩
  · simp [build_list, hn]
  · rw [prependLoop_toValues]
    have hsplit : n.toNat = (n - 1).toNat + 1 := by omega
    have hcast : (((n - 1).toNat : Nat) : Int) = n - 1 := by omega
    rw [hsplit, intRange, hcast]
    rfl

theorem sum_intRange (m : Nat) :
    2 * (intRange m).sum = (m : Int) * ((m : Int) - 1) := by
  induction m with
  | zero => simp [intRange]
  | succ m ih =>
    rw [intRange, List.sum_append, List.sum_cons, List.sum_nil]
    push_cast
    push_cast at ih
    linear_combination ih

theorem nthNext_toValues (k : Nat) :
    ∀ c, toValues (nthNext c k) = (toValues c).drop k := by
  induction k with
  | zero => intro c; simp [nthNext]
  | succ k ih =>
    intro c
    cases c with
    | nil => simp [nthNext, toValues]
    | mk v next => simp [nthNext, toValues, ih]

theorem toValues_eq_nil (c : PyNode) (h : toValues c = []) : c = PyNode.nil := by
  cases c with
  | nil => rfl
  | mk v next => simp [toValues] at h

theorem toValues_singleton (c : PyNode) (x : Int) (h : toValues c = [x]) :
    c = PyNode.mk x PyNode.nil := by
  cases c with
  | nil => simp [toValues] at h
  | mk v next =>
    simp only [toValues, List.cons.injEq] at h
    rw [h.1, toValues_eq_nil next h.2]

theorem callLoop_eq_replicate (timed : Bool) (k : Nat) :
    callLoop timed k = List.replicate k (BenchEvent.call timed) := by
  induction k with
  | zero => rfl
  | succ k ih => rw [callLoop, ih, List.replicate_succ']

theorem countP_replicate {α : Type} (p : α → Bool) (a : α) (k : Nat) :
    (List.replicate k a).countP p = if p a then k else 0 := by
  induction k with
  | zero => simp
  | succ k ih =>
    rw [List.replicate_succ, List.countP_cons, ih]
    by_cases h : p a <;> simp [h]

/-! ### Claim theorems -/

/-- Claim C1: for every integer `n > 0`, both the native sum
`py_sum_list` and the managed sum `python_sum_list` of the list built
by `build_list` over the pure-Python provider equal the closed form
`n * (n - 1) / 2`. -/
theorem claim_C1_sums_closed_form (n : Int) (hn : 0 < n) :
    ∃ tr head, build_list n = (tr, Except.ok head) ∧
      py_sum_list head = n * (n - 1) / 2 ∧
      python_sum_list head = n * (n - 1) / 2 := by
  obtain ⟨tr, head, hb, hv⟩ := build_list_pos n hn
  have h2 : 2 * (toValues head).sum = n * (n - 1) := by
    rw [hv, sum_intRange]
    have hc : ((n.toNat : Nat) : Int) = n := by omega
    rw [hc]
  have hsum : (toValues head).sum = n * (n - 1) / 2 := by
    generalize hP : n * (n - 1) = P at h2 ⊢
    omega
  exact ⟨tr, head, hb, by rw [py_sum_list_eq_sum, hsum],
    by rw [python_sum_list_eq_sum, hsum]⟩

/-- Witness for C1 at `n = 5`: the hypothesis `0 < 5` holds and both
sums of the 5-node list equal `5 * 4 / 2 = 10`. -/
theorem claim_C1_witness :
    (0 : Int) < 5 ∧ (∃ tr head, build_list 5 = (tr, Except.ok head) ∧
      py_sum_list head = 5 * (5 - 1) / 2 ∧
      python_sum_list head = 5 * (5 - 1) / 2) :=
  ⟨by norm_num, claim_C1_sums_closed_form 5 (by norm_num)⟩

/-- Claim C2: for every integer `n > 0`, `build_list` over the
pure-Python provider succeeds and yields a chain of exactly `n` nodes
whose values, read head to tail via the `next` field, are
`0, 1, ..., n - 1` in ascending order; following `next` exactly
`n` times reaches the absence marker, and the final node (reached
after `n - 1` steps) holds value `n - 1` with `next` absent.  The
inductive representation of `PyNode` makes every such chain finite and
singly linked, so the traversal facts below also witness acyclicity. -/
theorem claim_C2_build_list_structure (n : Int) (hn : 0 < n) :
    ∃ tr head, build_list n = (tr, Except.ok head) ∧
      toValues head = intRange n.toNat ∧
      (toValues head).length = n.toNat ∧
      nthNext head n.toNat = PyNode.nil ∧
      nthNext head (n.toNat - 1) = PyNode.mk (n - 1) PyNode.nil := by
  obtain ⟨tr, head, hb, hv⟩ := build_list_pos n hn
  refine ⟨tr, head, hb, hv, ?_, ?_, ?_⟩
  · rw [hv, intRange_length]
  · apply toValues_eq_nil
    rw [nthNext_toValues, hv]
    apply List.drop_eq_nil_of_le
    rw [intRange_length]
  · apply toValues_singleton
    rw [nthNext_toValues, hv]
    have hm : n.toNat = (n.toNat - 1) + 1 := by omega
    have hstep := List.drop_left (intRange (n.toNat - 1)) [((n.toNat - 1 : Nat) : Int)]
    rw [intRange_length] at hstep
    have hcast : ((n.toNat - 1 : Nat) : Int) = n - 1 := by omega
    calc (intRange n.toNat).drop (n.toNat - 1)
        = (intRange ((n.toNat - 1) + 1)).drop (n.toNat - 1) := by rw [← hm]
      _ = (intRange (n.toNat - 1) ++ [((n.toNat - 1 : Nat) : Int)]).drop (n.toNat - 1) := by
            rw [intRange]
      _ = [((n.toNat - 1 : Nat) : Int)] := hstep
      _ = [n - 1] := by rw [hcast]

/-- Witness for C2 at `n = 4`: the hypothesis `0 < 4` holds, and the
4-node list has values `[0, 1, 2, 3]`, length 4, and a final node
`mk 3 nil`. -/
theorem claim_C2_witness :
    (0 : Int) < 4 ∧ (∃ tr head, build_list 4 = (tr, Except.ok head) ∧
      toValues head = intRange (4 : Int).toNat ∧
      (toValues head).length = (4 : Int).toNat ∧
      nthNext head (4 : Int).toNat = PyNode.nil ∧
      nthNext head ((4 : Int).toNat - 1) = PyNode.mk (4 - 1) PyNode.nil) :=
  ⟨by norm_num, claim_C2_build_list_structure 4 (by norm_num)⟩

/-- Claim C3: for every invocable `fn` and every `iterations > 0`,
`bench` invokes `fn` exactly `1000 + iterations` times in total —
exactly 1000 warmup calls (results discarded, before the timer starts)
followed by exactly `iterations` timed calls — and returns the elapsed
time divided by `iterations`.  The first conjunct pins the full event
trace (so every warmup call precedes the timer start, which precedes
every timed call) and the returned value; the remaining conjuncts
count the invocations. -/
theorem claim_C3_bench_call_structure (iterations : Int) (elapsed_ns : Int)
    (hit : 0 < iterations) :
    bench iterations true elapsed_ns =
      (List.replicate 1000 (BenchEvent.call false) ++ [BenchEvent.timerStart] ++
        List.replicate iterations.toNat (BenchEvent.call true) ++ [BenchEvent.timerStop],
       Except.ok ((elapsed_ns : Rat) / (iterations : Rat))) ∧
    (bench iterations true elapsed_ns).1.countP isCall = 1000 + iterations.toNat ∧
    (bench iterations true elapsed_ns).1.countP
      (fun e => e == BenchEvent.call false) = 1000 ∧
    (bench iterations true elapsed_ns).1.countP
      (fun e => e == BenchEvent.call true) = iterations.toNat := by
  have hb : bench iterations true elapsed_ns =
      (List.replicate 1000 (BenchEvent.call false) ++ [BenchEvent.timerStart] ++
        List.replicate iterations.toNat (BenchEvent.call true) ++ [BenchEvent.timerStop],
       Except.ok ((elapsed_ns : Rat) / (iterations : Rat))) := by
    rw [bench, if_pos hit, if_pos rfl, callLoop_eq_replicate, callLoop_eq_replicate]
  have htr : (bench iterations true elapsed_ns).1 =
      List.replicate 1000 (BenchEvent.call false) ++ [BenchEvent.timerStart] ++
        List.replicate iterations.toNat (BenchEvent.call true) ++ [BenchEvent.timerStop] := by
    rw [hb]
  refine ⟨hb, ?_, ?_, ?_⟩ <;>
    rw [htr, List.countP_append, List.countP_append, List.countP_append,
      countP_replicate, countP_replicate] <;>
    simp only [List.countP_cons, List.countP_nil, isCall, beq_iff_eq] <;>
    simp

/-- Witness for C3 at `iterations = 3`, `elapsed_ns = 12`: the
hypothesis `0 < 3` holds and the trace holds `1000 + 3` calls. -/
theorem claim_C3_witness :
    (0 : Int) < 3 ∧
      (bench 3 true 12).1.countP isCall = 1000 + (3 : Int).toNat :=
  ⟨by norm_num, (claim_C3_bench_call_structure 3 12 (by norm_num)).2.1⟩

/-- Claim C4: the summary engine's hypothesis-falsified branch is
taken exactly when `rust_native < c_native`; otherwise it reports the
difference of the two timings and that difference divided by the list
length `N` as the per-node overhead. -/
theorem claim_C4_falsification_spec (rust_native c_native : Rat) (listLen : Nat) :
    (falsification_check rust_native c_native listLen =
        FalsificationOutcome.falsified ↔ rust_native < c_native) ∧
    (c_native ≤ rust_native →
      falsification_check rust_native c_native listLen =
        FalsificationOutcome.overhead (rust_native - c_native)
          ((rust_native - c_native) / (listLen : Rat))) := by
  constructor
  · constructor
    · intro hf
      by_contra hlt
      rw [falsification_check, if_neg hlt] at hf
      exact FalsificationOutcome.noConfusion hf
    · intro hlt
      rw [falsification_check, if_pos hlt]
  · intro hle
    rw [falsification_check, if_neg (not_lt.mpr hle)]

/-- Witness for C4 at `rust_native = 3`, `c_native = 1`, `N = 1000`
(overhead branch) and at `rust_native = 1`, `c_native = 3`
(falsified branch). -/
theorem claim_C4_witness :
    falsification_check 3 1 1000 =
      FalsificationOutcome.overhead (3 - 1) ((3 - 1) / ((1000 : Nat) : Rat)) ∧
    falsification_check 1 3 1000 = FalsificationOutcome.falsified :=
  ⟨(claim_C4_falsification_spec 3 1 1000).2 (by norm_num),
   (claim_C4_falsification_spec 1 3 1000).1.mpr (by norm_num)⟩

/-- Claim C5: correctness verification gates the timing phase — if any
of the six computed sums disagrees with the expected closed form, the
run aborts at the first failing assert, so the trace contains no
`bench` invocation, no ratios section and no falsification section. -/
theorem claim_C5_verification_gates_bench (s1 s2 s3 s4 s5 s6 e : Int)
    (hmismatch : s1 ≠ e ∨ s2 ≠ e ∨ s3 ≠ e ∨ s4 ≠ e ∨ s5 ≠ e ∨ s6 ≠ e) :
    (∀ j, MainEvent.benchRun j ∉ main_verify_and_bench s1 s2 s3 s4 s5 s6 e) ∧
    MainEvent.ratioLine ∉ main_verify_and_bench s1 s2 s3 s4 s5 s6 e ∧
    MainEvent.falsificationLine ∉ main_verify_and_bench s1 s2 s3 s4 s5 s6 e := by
  rw [main_verify_and_bench]
  split_ifs with h1 h2 h3 h4 h5 h6
  · exact ⟨fun j => by simp, by simp, by simp⟩
  · exact ⟨fun j => by simp, by simp, by simp⟩
  · exact ⟨fun j => by simp, by simp, by simp⟩
  · exact ⟨fun j => by simp, by simp, by simp⟩
  · exact ⟨fun j => by simp, by simp, by simp⟩
  · exact ⟨fun j => by simp, by simp, by simp⟩
  · rcases hmismatch with h | h | h | h | h | h
    · exact absurd h h1
    · exact absurd h h2
    · exact absurd h h3
    · exact absurd h h4
    · exact absurd h h5
    · exact absurd h h6

/-- Witness for C5: with the first sum wrong (`1 ≠ 0`), the first
bench invocation is absent from the trace. -/
theorem claim_C5_witness :
    MainEvent.benchRun 0 ∉ main_verify_and_bench 1 0 0 0 0 0 0 :=
  (claim_C5_verification_gates_bench 1 0 0 0 0 0 0 (Or.inl (by norm_num))).1 0

/-- Claim C6: for every integer `n ≤ 0`, `build_list` fails with the
invalid-argument condition, and the construction trace is empty — the
failure happens before any node is constructed. -/
theorem claim_C6_build_list_nonpositive (n : Int) (hn : n ≤ 0) :
    build_list n = ([], Except.error "List length must be positive") := by
  rw [build_list, if_neg (by omega)]

/-- Witness for C6 at `n = 0` and `n = -5`. -/
theorem claim_C6_witness :
    build_list 0 = ([], Except.error "List length must be positive") ∧
    build_list (-5) = ([], Except.error "List length must be positive") :=
  ⟨claim_C6_build_list_nonpositive 0 (by norm_num),
   claim_C6_build_list_nonpositive (-5) (by norm_num)⟩

/-- Claim C7: `bench` fails with an invalid-argument condition
whenever `iterations ≤ 0` or `fn` is not invocable, and in either case
the event trace is empty — no invocation of `fn` and no clock reading
happens before the failure. -/
theorem claim_C7_bench_invalid (iterations : Int) (fnCallable : Bool)
    (elapsed_ns : Int) (hbad : iterations ≤ 0 ∨ fnCallable = false) :
    (bench iterations fnCallable elapsed_ns).1 = [] ∧
    ∃ msg, (bench iterations fnCallable elapsed_ns).2 = Except.error msg := by
  rcases hbad with h | h
  · rw [bench, if_neg (by omega)]
    exact ⟨rfl, "Iterations must be positive", rfl⟩
  · subst h
    by_cases hit : 0 < iterations
    · rw [bench, if_pos hit]
      exact ⟨rfl, "fn must be callable", rfl⟩
    · rw [bench, if_neg hit]
      exact ⟨rfl, "Iterations must be positive", rfl⟩

/-- Witness for C7 at `iterations = -1` with a callable `fn`, and at
`iterations = 7` with a non-callable `fn`. -/
theorem claim_C7_witness :
    ((bench (-1) true 0).1 = [] ∧ ∃ msg, (bench (-1) true 0).2 = Except.error msg) ∧
    ((bench 7 false 0).1 = [] ∧ ∃ msg, (bench 7 false 0).2 = Except.error msg) :=
  ⟨claim_C7_bench_invalid (-1) true 0 (Or.inl (by norm_num)),
   claim_C7_bench_invalid 7 false 0 (Or.inr rfl)⟩

/-- Claim C8: the managed traversal `python_sum_list` of `bench.py`
and the pure-Python provider's native sum `py_sum_list` of
`python_node.py` are extensionally equal on every node reference,
including the absent one. -/
theorem claim_C8_python_sum_eq_py_sum (head : PyNode) :
    python_sum_list head = py_sum_list head := by
  rw [python_sum_list_eq_sum, py_sum_list_eq_sum]

/-- Claim C9: both traversals return 0 on an absent head. -/
theorem claim_C9_absent_head :
    py_sum_list PyNode.nil = 0 ∧ python_sum_list PyNode.nil = 0 :=
  ⟨rfl, rfl⟩

theorem pySumLoopHeap_frame (fuel : Nat) :
    ∀ total cur h, (pySumLoopHeap fuel total cur h).2 = h := by
  induction fuel with
  | zero =>
    intro total cur h
    cases cur <;> rfl
  | succ fuel ih =>
    intro total cur h
    cases cur with
    | none => rfl
    | some a =>
      cases hha : h a with
      | none => simp [pySumLoopHeap, hha]
      | some nd => simp [pySumLoopHeap, hha, ih]

theorem pythonSumLoopHeap_frame (fuel : Nat) :
    ∀ total cur h, (pythonSumLoopHeap fuel total cur h).2 = h := by
  induction fuel with
  | zero =>
    intro total cur h
    cases cur <;> rfl
  | succ fuel ih =>
    intro total cur h
    cases cur with
    | none => rfl
    | some a =>
      cases hha : h a with
      | none => simp [pythonSumLoopHeap, hha]
      | some nd => simp [pythonSumLoopHeap, hha, ih]

/-- Claim C10: traversal leaves the list unchanged — in the heap-level
embedding, where the store is threaded through every loop iteration,
both `py_sum_list` and `python_sum_list` return the heap exactly as
they received it, so every node's `value` and `next` fields (reachable
or not) equal their pre-call values. -/
theorem claim_C10_traversal_frame (h : Heap) (head : Option Nat) (fuel : Nat) :
    (py_sum_list_heap h head fuel).2 = h ∧
    (python_sum_list_heap h head fuel).2 = h :=
  ⟨pySumLoopHeap_frame fuel 0 head h, pythonSumLoopHeap_frame fuel 0 head h⟩

end BoundaryBench
